import Mathlib

/-!
Shallow embedding of `src/sounds.py` (pyaudio-sound-system).

Samples, cursors, volumes, pitches and pan factors are modelled as exact
rationals (the Python code uses float32 numpy arrays; floating-point
rounding is outside the scope of this development).  Stereo frames are
pairs `(left, right) : ℚ × ℚ`, and numpy arrays of frames are `List (ℚ × ℚ)`.

Python operations that can raise (out-of-range fancy indexing, `%` by
zero) are modelled with `Option`: `none` is a raised exception.
numpy fancy indexing accepts negative indices `-len ≤ i < 0`, addressing
from the end, like plain Python indexing; that is reproduced in `pyget`.
The `astype("int32")` truncation of floor/ceil indices is modelled as
exact integers (int32 overflow is a float-regime concern out of scope).
-/

namespace Sounds

/-- Device sample rate constant (`SAMPLERATE = 48000`). -/
def SAMPLERATE : ℚ := 48000

/-- Stereo frame: one `(left, right)` sample pair. -/
abbrev Frame := ℚ × ℚ

/-- Python float modulo: `a % b = a - b * floor (a / b)`.
Python raises `ZeroDivisionError` for `b = 0`; all call sites below guard
that case with `Option`. -/
def pymod (a b : ℚ) : ℚ := a - b * ⌊a / b⌋

/-- numpy fancy indexing `data[i]` on a 1-axis-length-`len` array:
valid for `-len ≤ i < len`, negative indices address from the end,
anything else raises `IndexError` (`none`). -/
def pyget (data : List Frame) (i : ℤ) : Option Frame :=
  if 0 ≤ i then data[i.toNat]?
  else if -(data.length : ℤ) ≤ i then data[(i + data.length).toNat]?
  else none

/-- numpy `np.linspace(a, b, n)`: `n` evenly spaced points from `a` to `b`
inclusive; `[a]` for `n = 1`, empty for `n = 0`. -/
def linspace (a b : ℚ) (n : ℕ) : List ℚ :=
  if n ≤ 1 then List.replicate n a
  else (List.range n).map (fun i : ℕ => a + (b - a) * (i : ℚ) / ((n : ℚ) - 1))

/-- Helper for `np.clip(x, lo, hi)` on one sample: numpy computes
`min (max x lo) hi`. -/
def npclip (x lo hi : ℚ) : ℚ := min (max x lo) hi

/-- Embedding of `pan_frames(frames, factor)` (src/sounds.py lines 6-15).
`panned` starts as a copy; for `factor > 0` the right channel gains
`left * factor` and the left channel is scaled by `1 - factor`;
for `factor < 0` symmetrically with `factor` negated; otherwise
the copy is returned unchanged. -/
def pan_frames (frames : List Frame) (factor : ℚ) : List Frame :=
  if factor > 0 then
    frames.map (fun f => (f.1 * (1 - factor), f.2 + f.1 * factor))
  else if factor < 0 then
    frames.map (fun f => (f.1 + f.2 * (-factor), f.2 * (1 - (-factor))))
  else frames

/-- SampleStore (`SoundData`): immutable decoded buffer plus its native
sample rate.  `self.length = len(self.data)` is kept as a definition
rather than a stored field. -/
structure SoundData where
  data : List Frame
  samplerate : ℚ
deriving DecidableEq

/-- Embedding of `self.length = len(self.data)`. -/
def SoundData.length (sd : SoundData) : ℕ := sd.data.length

/-- Cursor-generation loop of `SoundData.get_frames` (lines 27-32):
`indices[i] = startIndex + index`, wrapped `%= length` when looping,
then `index += pitch[i]`.  The accumulator `index` keeps the unwrapped
value.  One output position per element of the pitch ramp. -/
def gen_positions (startIndex : ℚ) (len : ℕ) (loop : Bool) :
    List ℚ → ℚ → List ℚ
  | [], _ => []
  | p :: ps, index =>
      (if loop then pymod (startIndex + index) len else startIndex + index) ::
        gen_positions startIndex len loop ps (index + p)

/-- Effective per-sample pitch ramp of `SoundData.get_frames`
(lines 23-25): pitches are converted to source-rate units by
`* (samplerate / SAMPLERATE)` and ramped linearly across the block. -/
def SoundData.pitch_ramp (sd : SoundData) (startPitch endPitch : ℚ) (n : ℕ) :
    List ℚ :=
  linspace (startPitch * (sd.samplerate / SAMPLERATE))
    (endPitch * (sd.samplerate / SAMPLERATE)) n

/-- Generated cursor positions of one `SoundData.get_frames` call, before
the end-guard filter (lines 27-32). -/
def SoundData.gen_indices (sd : SoundData) (startIndex : ℚ) (n : ℕ)
    (startPitch endPitch : ℚ) (loop : Bool) : List ℚ :=
  gen_positions startIndex sd.length loop (sd.pitch_ramp startPitch endPitch n) 0

/-- Retained positions after the end-guard `indices = indices[indices < self.length - 1]`
(line 33).  Note the filter is applied unconditionally, loop or not. -/
def SoundData.valid_indices (sd : SoundData) (startIndex : ℚ) (n : ℕ)
    (startPitch endPitch : ℚ) (loop : Bool) : List ℚ :=
  (sd.gen_indices startIndex n startPitch endPitch loop).filter
    (fun x => x < (sd.length : ℚ) - 1)

/-- Linear interpolation step of `SoundData.get_frames` (lines 35-41) for
one retained position: `frames = (ceilData - floorData) * frac + floorData`,
with the fractional part broadcast to both channels (`mono_to_stereo`).
Fails (`IndexError`) when a floor/ceil index is outside numpy's valid
range. -/
def SoundData.interp_at (sd : SoundData) (x : ℚ) : Option Frame :=
  match pyget sd.data ⌊x⌋, pyget sd.data ⌈x⌉ with
  | some fl, some ce =>
      some ((ce.1 - fl.1) * (x - ⌊x⌋) + fl.1, (ce.2 - fl.2) * (x - ⌊x⌋) + fl.2)
  | _, _ => none

/-- Elementwise resampling of a list of retained positions (the numpy
gathers `floorData`, `ceilData` and the vectorised arithmetic of lines
35-41 act independently on each position; the whole gather raises as soon
as one index is invalid). -/
def SoundData.interp_list (sd : SoundData) : List ℚ → Option (List Frame)
  | [] => some []
  | x :: xs =>
      match sd.interp_at x, sd.interp_list xs with
      | some f, some fs => some (f :: fs)
      | _, _ => none

/-- Embedding of `SoundData.get_frames` (src/sounds.py lines 22-51).
Steps, in source order: effective-pitch ramp, cursor generation
(wrapping each generated position when looping — Python raises
`ZeroDivisionError` there when `length = 0`, the first guard), the
unconditional end-guard filter, linear resampling, the clamped volume
ramp over the *retained* frames, panning, silence padding up to `n`
(`while len(frames) < n: append [[0,0]]`), and the unwrapped advanced
cursor `startIndex + index`. -/
def SoundData.get_frames (sd : SoundData) (startIndex : ℚ) (n : ℕ)
    (startVolume endVolume startPitch endPitch pan : ℚ) (loop : Bool) :
    Option (List Frame × ℚ) :=
  if loop ∧ n ≠ 0 ∧ sd.length = 0 then none
  else
    match sd.interp_list (sd.valid_indices startIndex n startPitch endPitch loop) with
    | none => none
    | some frames0 =>
        let frames1 := List.zipWith (fun (f : Frame) (v : ℚ) => (f.1 * v, f.2 * v))
          frames0 (linspace (max 0 startVolume) (max 0 endVolume) frames0.length)
        let frames2 := pan_frames frames1 pan
        some (frames2 ++ List.replicate (n - frames2.length) ((0 : ℚ), (0 : ℚ)),
          startIndex + (sd.pitch_ramp startPitch endPitch n).sum)

/-- Voice (`SoundInstance`): playback cursor and crossfade state over a
shared `SoundData` (src/sounds.py lines 69-100). -/
structure SoundInstance where
  id : String
  volume : ℚ
  previousVolume : ℚ
  pan : ℚ
  pitch : ℚ
  previousPitch : ℚ
  data : SoundData
  index : ℚ
  loop : Bool
  toRemove : Bool
deriving DecidableEq

/-- Embedding of `SoundInstance.get_frames(n)` (lines 85-90): delegates to
`SoundData.get_frames` with the `(previousVolume, volume)` and
`(previousPitch, pitch)` ramps, stores the new cursor (wrapped modulo the
source length when looping — `ZeroDivisionError` when the length is 0),
then snapshots volume and pitch for the next block.  Returns the frames
and the updated voice. -/
def SoundInstance.get_frames (s : SoundInstance) (n : ℕ) :
    Option (List Frame × SoundInstance) :=
  match s.data.get_frames s.index n s.previousVolume s.volume
      s.previousPitch s.pitch s.pan s.loop with
  | none => none
  | some r =>
      if s.loop ∧ s.data.length = 0 then none
      else
        some (r.1,
          { s with index := if s.loop then pymod r.2 s.data.length else r.2,
                   previousVolume := s.volume,
                   previousPitch := s.pitch })

/-- Embedding of `SoundInstance.finished` (lines 92-93):
`self.toRemove or (not self.loop) and self.index > self.data.length`. -/
def SoundInstance.finished (s : SoundInstance) : Bool :=
  s.toRemove || (!s.loop && decide (s.index > (s.data.length : ℚ)))

/-- Embedding of `SoundInstance.remove` (lines 95-97): volume to 0, raise
the removal flag. -/
def SoundInstance.remove (s : SoundInstance) : SoundInstance :=
  { s with volume := 0, toRemove := true }

/-- Embedding of `SoundPlayer.get_sounds(id)` (lines 139-143): all active
voices whose id matches, in order. -/
def get_sounds (voices : List SoundInstance) (id : String) :
    List SoundInstance :=
  voices.filter (fun s => s.id = id)

/-- Embedding of `SoundPlayer.get_sound(id)` (lines 145-146):
`self.get_sounds(id)[0]`; Python raises `IndexError` when the list is
empty, modelled as `none`. -/
def get_sound (voices : List SoundInstance) (id : String) :
    Option SoundInstance :=
  (get_sounds voices id).head?

/-- Embedding of `SoundPlayer.stop_sounds(id)` (lines 148-149): every
matching voice is `remove()`d in place. -/
def stop_sounds (voices : List SoundInstance) (id : String) :
    List SoundInstance :=
  voices.map (fun s => if s.id = id then s.remove else s)

/-- Embedding of `SoundPlayer.check_sounds` (lines 151-153): iterate over
a copy, removing each finished voice from the live list.  `list.remove`
matches by `==` (object identity for `SoundInstance`s, which are never
duplicated in `currentSounds`), so the sweep is a filter. -/
def check_sounds (voices : List SoundInstance) : List SoundInstance :=
  voices.filter (fun s => !s.finished)

/-- Embedding of `SoundPlayer.mix(data, toMix)` (lines 125-126):
`data += np.clip(toMix, -1.0 - data, 1.0 - data)` — only the added delta
is clipped, to the headroom left by the accumulated value. -/
def mix (data toMix : List Frame) : List Frame :=
  List.zipWith
    (fun (d x : Frame) =>
      (d.1 + npclip x.1 (-1 - d.1) (1 - d.1),
       d.2 + npclip x.2 (-1 - d.2) (1 - d.2)))
    data toMix

/-- Loop body of the mixing pass in `SoundPlayer.callback` (lines
130-131): one voice's frames are generated and mixed into the running
block, and the updated voice is appended to the list of processed
voices. -/
def mix_step (frameCount : ℕ) (acc : List Frame × List SoundInstance)
    (s : SoundInstance) : Option (List Frame × List SoundInstance) :=
  match s.get_frames frameCount with
  | none => none
  | some fr => some (mix acc.1 fr.1, acc.2 ++ [fr.2])

/-- Embedding of `SoundPlayer.callback` (lines 128-134) as a state
transformer on the active-voice list: start from a zeroed block, mix in
each voice's `get_frames(frameCount)` over a snapshot of the list, then
reap with `check_sounds`.  Returns the filled block and the surviving
voices. -/
def callback (voices : List SoundInstance) (frameCount : ℕ) :
    Option (List Frame × List SoundInstance) :=
  match voices.foldlM (mix_step frameCount)
      (List.replicate frameCount ((0 : ℚ), (0 : ℚ)), ([] : List SoundInstance)) with
  | none => none
  | some r => some (r.1, check_sounds r.2)

/-- Iterated device ticks: `tickN k frameCount voices` runs `callback`
`k` times, threading the active-voice list. -/
def tickN : ℕ → ℕ → List SoundInstance → Option (List SoundInstance)
  | 0, _, voices => some voices
  | k + 1, frameCount, voices =>
      match callback voices frameCount with
      | none => none
      | some r => tickN k frameCount r.2

/-! Concrete fixtures used by witnesses and counterexamples. -/

/-- Length-5 store with distinct, non-silent samples. -/
def store5 : SoundData := ⟨[(10, 10), (20, 20), (30, 30), (40, 40), (50, 50)], 48000⟩

/-- Length-2 store with non-silent samples. -/
def store2 : SoundData := ⟨[(5, 5), (7, 7)], 48000⟩

/-- Length-2 store of unit samples. -/
def storeOnes : SoundData := ⟨[(1, 1), (1, 1)], 48000⟩

/-- Length-100 silent store at the device rate (spec scenario in §8). -/
def store100 : SoundData := ⟨List.replicate 100 ((0 : ℚ), (0 : ℚ)), 48000⟩

/-- Looping voice over `store100` at cursor 0 with unit volume and pitch. -/
def voiceMusic : SoundInstance := ⟨"music", 1, 1, 0, 1, 1, store100, 0, true, false⟩

/-- The state of `voiceMusic` after one `get_frames(10)` call. -/
def voiceMusic1 : SoundInstance := { voiceMusic with index := 10 }

/-- Non-looping voice over `store2`. -/
def voiceA : SoundInstance := ⟨"a", 1, 1, 0, 1, 1, store2, 0, false, false⟩

/-- Looping voice over `store2`. -/
def voiceLoop : SoundInstance := ⟨"m", 1, 1, 0, 1, 1, store2, 0, true, false⟩

/-- The state of `voiceLoop` after one `get_frames(1)` call. -/
def voiceLoop1 : SoundInstance := { voiceLoop with index := 1 }

end Sounds

namespace Sounds

/-! General lemmas about the embedded operations. -/

theorem length_linspace (a b : ℚ) (n : ℕ) : (linspace a b n).length = n := by
  unfold linspace
  split
  · exact List.length_replicate ..
  · rw [List.length_map, List.length_range]

theorem length_gen_positions (si : ℚ) (len : ℕ) (loop : Bool) :
    ∀ (ps : List ℚ) (idx : ℚ), (gen_positions si len loop ps idx).length = ps.length
  | [], _ => rfl
  | p :: ps, idx => by
    simp [gen_positions, length_gen_positions si len loop ps (idx + p)]

theorem interp_list_length (sd : SoundData) :
    ∀ {xs : List ℚ} {fs : List Frame},
      sd.interp_list xs = some fs → fs.length = xs.length := by
  intro xs
  induction xs with
  | nil => intro fs h; simp [SoundData.interp_list] at h; simp [← h]
  | cons x xs ih =>
    intro fs h
    unfold SoundData.interp_list at h
    cases h1 : sd.interp_at x with
    | none => rw [h1] at h; simp at h
    | some f =>
      cases h2 : sd.interp_list xs with
      | none => rw [h1, h2] at h; simp at h
      | some fs' =>
        rw [h1, h2] at h
        simp at h
        subst h
        simp [ih h2]

theorem pan_frames_length (frames : List Frame) (factor : ℚ) :
    (pan_frames frames factor).length = frames.length := by
  unfold pan_frames
  split <;> [skip; split] <;> simp

theorem pymod_nonneg_of_pos (a b : ℚ) (hb : 0 < b) : 0 ≤ pymod a b := by
  have h1 : (⌊a / b⌋ : ℚ) ≤ a / b := Int.floor_le _
  rw [le_div_iff₀ hb] at h1
  unfold pymod
  rw [mul_comm]
  linarith

theorem pymod_lt_of_pos (a b : ℚ) (hb : 0 < b) : pymod a b < b := by
  have h2 : a / b < ⌊a / b⌋ + 1 := Int.lt_floor_add_one _
  rw [div_lt_iff₀ hb] at h2
  unfold pymod
  rw [mul_comm]
  linarith

theorem valid_indices_length_le (sd : SoundData) (si : ℚ) (n : ℕ)
    (sp ep : ℚ) (loop : Bool) :
    (sd.valid_indices si n sp ep loop).length ≤ n := by
  unfold SoundData.valid_indices
  calc ((sd.gen_indices si n sp ep loop).filter _).length
      ≤ (sd.gen_indices si n sp ep loop).length := List.length_filter_le _ _
    _ = n := by
        unfold SoundData.gen_indices
        rw [length_gen_positions, SoundData.pitch_ramp, length_linspace]

/-- Successful `SoundData.get_frames` calls produce the tail-padded block of
the volume-scaled, panned resampled frames, and the unwrapped cursor. -/
theorem get_frames_shape (sd : SoundData) (si : ℚ) (n : ℕ)
    (sv ev sp ep pan : ℚ) (loop : Bool) (fr : List Frame) (c : ℚ)
    (h : sd.get_frames si n sv ev sp ep pan loop = some (fr, c)) :
    ∃ frames0, sd.interp_list (sd.valid_indices si n sp ep loop) = some frames0 ∧
      fr = pan_frames (List.zipWith (fun (f : Frame) (v : ℚ) => (f.1 * v, f.2 * v))
              frames0 (linspace (max 0 sv) (max 0 ev) frames0.length)) pan ++
            List.replicate (n - (pan_frames (List.zipWith
                (fun (f : Frame) (v : ℚ) => (f.1 * v, f.2 * v))
                frames0 (linspace (max 0 sv) (max 0 ev) frames0.length)) pan).length)
              ((0 : ℚ), (0 : ℚ)) ∧
      c = si + (sd.pitch_ramp sp ep n).sum := by
  unfold SoundData.get_frames at h
  split at h
  · exact absurd h (by simp)
  · split at h
    · exact absurd h (by simp)
    · rename_i frames0 hm
      simp only [Option.some.injEq, Prod.mk.injEq] at h
      exact ⟨frames0, hm, h.1.symm, h.2.symm⟩

theorem processed_length (frames0 : List Frame) (sv ev pan : ℚ) :
    (pan_frames (List.zipWith (fun (f : Frame) (v : ℚ) => (f.1 * v, f.2 * v))
      frames0 (linspace sv ev frames0.length)) pan).length = frames0.length := by
  rw [pan_frames_length, List.length_zipWith, length_linspace, min_self]

theorem gen_positions_loop_mem (si : ℚ) (len : ℕ) (hlen : 0 < (len : ℚ)) :
    ∀ (ps : List ℚ) (idx : ℚ), ∀ x ∈ gen_positions si len true ps idx,
      0 ≤ x ∧ x < (len : ℚ)
  | [], idx => by intro x hx; simp [gen_positions] at hx
  | p :: ps, idx => by
    intro x hx
    simp only [gen_positions, if_true, List.mem_cons] at hx
    rcases hx with h | h
    · subst h
      exact ⟨pymod_nonneg_of_pos _ _ hlen, pymod_lt_of_pos _ _ hlen⟩
    · exact gen_positions_loop_mem si len hlen ps (idx + p) x h

end Sounds

namespace Sounds

/-! Claim C1. -/

/-- C1 (amended): whenever `SoundData.get_frames` returns (that is, no
out-of-range buffer access is raised), the returned block has exactly `n`
frames, and every frame past the retained valid positions is the silent
pad `(0, 0)`: the tail after the retained count is exactly a replicate of
silent frames.  (As originally stated — for *every* starting cursor — the
claim fails: see the counterexample, where the call raises `IndexError`
and returns no block at all.) -/
theorem C1_frames_padded (sd : SoundData) (si : ℚ) (n : ℕ)
    (sv ev sp ep pan : ℚ) (loop : Bool) (fr : List Frame) (c : ℚ)
    (h : sd.get_frames si n sv ev sp ep pan loop = some (fr, c)) :
    fr.length = n ∧
    (sd.valid_indices si n sp ep loop).length ≤ n ∧
    fr.drop ((sd.valid_indices si n sp ep loop).length) =
      List.replicate (n - (sd.valid_indices si n sp ep loop).length)
        ((0 : ℚ), (0 : ℚ)) := by
  obtain ⟨frames0, hm, hfr, -⟩ := get_frames_shape sd si n sv ev sp ep pan loop fr c h
  have hlen0 : frames0.length = (sd.valid_indices si n sp ep loop).length :=
    interp_list_length sd hm
  have hle : (sd.valid_indices si n sp ep loop).length ≤ n :=
    valid_indices_length_le sd si n sp ep loop
  have hplen := processed_length frames0 (max 0 sv) (max 0 ev) pan
  refine ⟨?_, hle, ?_⟩
  · rw [hfr, List.length_append, List.length_replicate, hplen, hlen0]
    omega
  · have hPl : (pan_frames (List.zipWith (fun (f : Frame) (v : ℚ) => (f.1 * v, f.2 * v))
        frames0 (linspace (max 0 sv) (max 0 ev) frames0.length)) pan).length =
        (sd.valid_indices si n sp ep loop).length := hplen.trans hlen0
    rw [hfr, ← hPl, List.drop_left]

/-- C1 counterexample: the claim quantifies over every starting cursor, but
a non-looping call at cursor `-10` on a length-5 store generates retained
position `-10`, whose gather `data[-10]` is an out-of-range numpy index:
the Python call raises `IndexError` and returns no frames at all. -/
theorem C1_out_of_range_cursor_faults :
    store5.get_frames (-10) 1 1 1 1 1 0 false = none := by
  with_unfolding_all rfl

/-- C1 witness: at a concrete successful call (non-looping unit store,
3 frames requested from cursor 0, only position 0 retained) the theorem's
conclusion holds with the concretely computed block. -/
theorem C1_frames_padded_witness :
    ([((1 : ℚ), (1 : ℚ)), (0, 0), (0, 0)] : List Frame).length = 3 ∧
    (storeOnes.valid_indices 0 3 1 1 false).length ≤ 3 ∧
    ([((1 : ℚ), (1 : ℚ)), (0, 0), (0, 0)] : List Frame).drop
        ((storeOnes.valid_indices 0 3 1 1 false).length) =
      List.replicate (3 - (storeOnes.valid_indices 0 3 1 1 false).length)
        ((0 : ℚ), (0 : ℚ)) :=
  C1_frames_padded storeOnes 0 3 1 1 1 1 0 false
    [((1 : ℚ), (1 : ℚ)), (0, 0), (0, 0)] 3 (by with_unfolding_all rfl)

/-! Claim C2. -/

/-- C2 (amended): when `loop = true` (on a nonempty store) every generated
cursor position does satisfy `0 ≤ p < sourceLength`; but the end-guard
filter `indices[indices < length - 1]` is applied unconditionally — also
when looping — so every retained position additionally satisfies
`p < sourceLength - 1`, and looping positions in
`[sourceLength - 1, sourceLength)` are discarded rather than interpolated
(see the counterexample). -/
theorem C2_loop_positions_bounded (sd : SoundData) (si : ℚ) (n : ℕ)
    (sp ep : ℚ) (h : 0 < sd.length) :
    (∀ x ∈ sd.gen_indices si n sp ep true, 0 ≤ x ∧ x < (sd.length : ℚ)) ∧
    (∀ x ∈ sd.valid_indices si n sp ep true, x < (sd.length : ℚ) - 1) := by
  have hlen : (0 : ℚ) < (sd.length : ℚ) := by exact_mod_cast h
  constructor
  · unfold SoundData.gen_indices
    exact gen_positions_loop_mem si sd.length hlen _ 0
  · intro x hx
    unfold SoundData.valid_indices at hx
    have := List.of_mem_filter hx
    simpa [decide_eq_true_eq] using this

/-- C2 counterexample: looping call on a length-2 store starting at cursor
1\.  The single generated position is `1 % 2 = 1`, well inside
`[0, sourceLength)`, yet the end guard (applied despite `loop = true`)
discards it — the retained set is empty and the output frame is the
silent pad rather than the interpolated sample `(7, 7)`. -/
theorem C2_end_guard_applies_when_looping :
    store2.gen_indices 1 1 1 1 true = [1] ∧
    store2.valid_indices 1 1 1 1 true = [] ∧
    store2.get_frames 1 1 1 1 1 1 0 true = some ([(0, 0)], 2) := by
  refine ⟨?_, ?_, ?_⟩ <;> with_unfolding_all rfl

/-- C2 witness: the amended bounds instantiated on the length-2 store at
cursor 1. -/
theorem C2_loop_positions_bounded_witness :
    (∀ x ∈ store2.gen_indices 1 1 1 1 true, 0 ≤ x ∧ x < (store2.length : ℚ)) ∧
    (∀ x ∈ store2.valid_indices 1 1 1 1 true, x < (store2.length : ℚ) - 1) :=
  C2_loop_positions_bounded store2 1 1 1 1 (by decide)

end Sounds

namespace Sounds

/-! Claim C3. -/

/-- C3 (amended): for every non-looping length-5 store at the device rate,
requesting 10 frames from cursor 3 with unit pitch yields a block whose
frame 0 is the (trivially) interpolated sample at source position 3 and
whose frames 1 through 9 are all `(0, 0)`, with unwrapped cursor 13: the
generated position 4 equals `sourceLength - 1` and is discarded by the end
guard, so — contrary to the claim as stated — frame 1 is silence, not the
interpolated sample at position 4. -/
theorem C3_only_first_frame_interpolated (a b c d e : Frame) :
    SoundData.get_frames ⟨[a, b, c, d, e], 48000⟩ 3 10 1 1 1 1 0 false =
      some (d :: List.replicate 9 ((0 : ℚ), (0 : ℚ)), 13) := by
  have hp : SoundData.pitch_ramp ⟨[a, b, c, d, e], 48000⟩ 1 1 10 =
      List.replicate 10 1 := by
    show linspace (1 * ((48000 : ℚ) / SAMPLERATE)) (1 * ((48000 : ℚ) / SAMPLERATE)) 10 =
      List.replicate 10 1
    with_unfolding_all rfl
  have hln : (⟨[a, b, c, d, e], 48000⟩ : SoundData).length = 5 := rfl
  have hv : SoundData.valid_indices ⟨[a, b, c, d, e], 48000⟩ 3 10 1 1 false = [3] := by
    unfold SoundData.valid_indices SoundData.gen_indices
    rw [hp, hln]
    with_unfolding_all rfl
  have hat : SoundData.interp_at ⟨[a, b, c, d, e], 48000⟩ 3 = some d := by
    have h0 : SoundData.interp_at ⟨[a, b, c, d, e], 48000⟩ 3 =
        some ((d.1 - d.1) * ((3 : ℚ) - ((3 : ℤ) : ℚ)) + d.1,
              (d.2 - d.2) * ((3 : ℚ) - ((3 : ℤ) : ℚ)) + d.2) := by
      with_unfolding_all rfl
    rw [h0]
    norm_num
  have hl : SoundData.interp_list ⟨[a, b, c, d, e], 48000⟩
      (SoundData.valid_indices ⟨[a, b, c, d, e], 48000⟩ 3 10 1 1 false) =
      some [d] := by
    rw [hv]
    simp [SoundData.interp_list, hat]
  have hc : (3 : ℚ) + (SoundData.pitch_ramp ⟨[a, b, c, d, e], 48000⟩ 1 1 10).sum
      = 13 := by
    rw [hp]
    with_unfolding_all rfl
  have hz : linspace (max 0 1) (max 0 1) 1 = [1] := by
    with_unfolding_all rfl
  unfold SoundData.get_frames
  rw [hl]
  simp only [Bool.false_eq_true, false_and, if_false, List.length_singleton, hz,
    List.zipWith_cons_cons, List.zipWith_nil_right, mul_one, List.zipWith_nil_left]
  norm_num [pan_frames, hc]

/-- C3 counterexample: on the concrete store `(10,10) … (50,50)` the block
returned for the claim's scenario has frame 1 equal to the silent pad
`(0, 0)`, although the linearly interpolated sample at source position 4
is `(50, 50)` — so frames 0 *and 1* are not both interpolated samples as
the claim requires. -/
theorem C3_frame_one_not_interpolated :
    store5.get_frames 3 10 1 1 1 1 0 false =
      some ((40, 40) :: List.replicate 9 ((0 : ℚ), (0 : ℚ)), 13) ∧
    store5.interp_at 4 = some (50, 50) ∧
    ((40, 40) :: List.replicate 9 ((0 : ℚ), (0 : ℚ)))[1]? = some (0, 0) ∧
    (((0 : ℚ), (0 : ℚ)) : Frame) ≠ ((50 : ℚ), (50 : ℚ)) := by
  refine ⟨?_, ?_, ?_, ?_⟩
  · with_unfolding_all rfl
  · with_unfolding_all rfl
  · rfl
  · with_unfolding_all decide

end Sounds

namespace Sounds

/-! Claim C4 (and its mixing lemmas). -/

theorem npclip_step_bounds (d x : ℚ) :
    -1 ≤ d + npclip x (-1 - d) (1 - d) ∧ d + npclip x (-1 - d) (1 - d) ≤ 1 := by
  unfold npclip
  constructor
  · have hlo : -1 - d ≤ min (max x (-1 - d)) (1 - d) :=
      le_min (le_max_right _ _) (by linarith)
    linarith
  · have hhi : min (max x (-1 - d)) (1 - d) ≤ 1 - d := min_le_right _ _
    linarith

theorem mix_mem_bounds (data toMix : List Frame) :
    ∀ f ∈ mix data toMix, ((-1 ≤ f.1 ∧ f.1 ≤ 1) ∧ (-1 ≤ f.2 ∧ f.2 ≤ 1)) := by
  induction data generalizing toMix with
  | nil => simp [mix]
  | cons a l ih =>
    cases toMix with
    | nil => simp [mix]
    | cons b m =>
      intro f hf
      simp only [mix, List.zipWith_cons_cons, List.mem_cons] at hf
      rcases hf with h | h
      · subst h
        exact ⟨npclip_step_bounds a.1 b.1, npclip_step_bounds a.2 b.2⟩
      · exact ih m f h

theorem mix_fold_bounds (n : ℕ) :
    ∀ (voices : List SoundInstance) (acc : List Frame × List SoundInstance),
    (∀ f ∈ acc.1, ((-1 ≤ f.1 ∧ f.1 ≤ 1) ∧ (-1 ≤ f.2 ∧ f.2 ≤ 1))) →
    ∀ r, voices.foldlM (mix_step n) acc = some r →
    ∀ f ∈ r.1, ((-1 ≤ f.1 ∧ f.1 ≤ 1) ∧ (-1 ≤ f.2 ∧ f.2 ≤ 1)) := by
  intro voices
  induction voices with
  | nil =>
    intro acc hacc r hr
    simp only [List.foldlM_nil, pure, Option.some.injEq] at hr
    subst hr
    exact hacc
  | cons v vs ih =>
    intro acc hacc r hr
    rw [List.foldlM_cons] at hr
    cases hstep : mix_step n acc v with
    | none => rw [hstep] at hr; simp at hr
    | some acc' =>
      rw [hstep] at hr
      have hr' : vs.foldlM (mix_step n) acc' = some r := hr
      unfold mix_step at hstep
      cases hg : v.get_frames n with
      | none => rw [hg] at hstep; simp at hstep
      | some fr =>
        rw [hg] at hstep
        simp only [Option.some.injEq] at hstep
        subst hstep
        exact ih (mix acc.1 fr.1, acc.2 ++ [fr.2])
          (mix_mem_bounds acc.1 fr.1) r hr'

/-- C4: one mix step `data += np.clip(toMix, -1 - data, 1 - data)` clips
only the added delta to the remaining headroom, so a sample accumulated in
`[-1, 1]` stays in `[-1, 1]` whatever is added; consequently every sample
of the block returned by the device callback (tick) lies in `[-1, 1]`, for
any number of voices of any amplitudes. -/
theorem C4_mix_clipped_to_unit_range :
    (∀ d x : ℚ, -1 ≤ d → d ≤ 1 →
      -1 ≤ d + npclip x (-1 - d) (1 - d) ∧ d + npclip x (-1 - d) (1 - d) ≤ 1) ∧
    (∀ (voices : List SoundInstance) (n : ℕ) (out : List Frame)
        (vs' : List SoundInstance),
        callback voices n = some (out, vs') →
        ∀ f ∈ out, (-1 ≤ f.1 ∧ f.1 ≤ 1) ∧ (-1 ≤ f.2 ∧ f.2 ≤ 1)) := by
  constructor
  · intro d x h1 h2
    exact npclip_step_bounds d x
  · intro voices n out vs' h f hf
    unfold callback at h
    split at h
    · exact absurd h (by simp)
    · rename_i r hfold
      simp only [Option.some.injEq, Prod.mk.injEq] at h
      obtain ⟨h1, -⟩ := h
      have hinit : ∀ g ∈ (List.replicate n ((0 : ℚ), (0 : ℚ))),
          ((-1 ≤ g.1 ∧ g.1 ≤ 1) ∧ (-1 ≤ g.2 ∧ g.2 ≤ 1)) := by
        intro g hg
        rw [List.eq_of_mem_replicate hg]
        norm_num
      exact mix_fold_bounds n voices _ hinit r hfold f (h1 ▸ hf)

/-- C4 witness: the step bound at accumulated 0 with an over-unit delta 5
(clipped to 1), and the callback bound at a concrete one-voice mix whose
raw sample `(5, 5)` is clipped to `(1, 1)`. -/
theorem C4_mix_clipped_to_unit_range_witness :
    (-1 ≤ (0 : ℚ) + npclip 5 (-1 - 0) (1 - 0) ∧
      (0 : ℚ) + npclip 5 (-1 - 0) (1 - 0) ≤ 1) ∧
    ((-1 ≤ ((1 : ℚ), (1 : ℚ)).1 ∧ ((1 : ℚ), (1 : ℚ)).1 ≤ 1) ∧
     (-1 ≤ ((1 : ℚ), (1 : ℚ)).2 ∧ ((1 : ℚ), (1 : ℚ)).2 ≤ 1)) :=
  ⟨C4_mix_clipped_to_unit_range.1 0 5 (by norm_num) (by norm_num),
   C4_mix_clipped_to_unit_range.2 [voiceLoop] 1 [(1, 1)] [voiceLoop1]
     (by with_unfolding_all rfl) (1, 1) (List.mem_singleton.mpr rfl)⟩

end Sounds

namespace Sounds

/-! Claim C5. -/

/-- C5: `SoundData.get_frames` returns the unwrapped (non-modulo) advanced
cursor — the starting cursor plus the sum of the `n` per-sample effective
pitch increments — for every input, looping or not; and in the spec's
concrete scenario (length-100 store at the device rate, pitch 1, loop)
two successive `get_frames(10)` calls on the voice generate positions
`0,…,9` and then `10,…,19`, all within `[0, 100)`. -/
theorem C5_cursor_unwrapped_sum_of_pitch :
    (∀ (sd : SoundData) (si : ℚ) (n : ℕ) (sv ev sp ep pan : ℚ) (loop : Bool)
        (fr : List Frame) (c : ℚ),
        sd.get_frames si n sv ev sp ep pan loop = some (fr, c) →
        c = si + (sd.pitch_ramp sp ep n).sum) ∧
    store100.gen_indices 0 10 1 1 true = [0, 1, 2, 3, 4, 5, 6, 7, 8, 9] ∧
    voiceMusic.get_frames 10 =
      some (List.replicate 10 ((0 : ℚ), (0 : ℚ)), voiceMusic1) ∧
    voiceMusic1.index = 10 ∧
    store100.gen_indices 10 10 1 1 true =
      [10, 11, 12, 13, 14, 15, 16, 17, 18, 19] ∧
    (∀ x ∈ store100.gen_indices 0 10 1 1 true, 0 ≤ x ∧ x < 100) ∧
    (∀ x ∈ store100.gen_indices 10 10 1 1 true, 0 ≤ x ∧ x < 100) := by
  refine ⟨?_, ?_, ?_, ?_, ?_, ?_, ?_⟩
  · intro sd si n sv ev sp ep pan loop fr c h
    obtain ⟨-, -, -, hc⟩ := get_frames_shape sd si n sv ev sp ep pan loop fr c h
    exact hc
  · with_unfolding_all rfl
  · with_unfolding_all rfl
  · rfl
  · with_unfolding_all rfl
  · with_unfolding_all decide
  · with_unfolding_all decide

/-- C5 witness: the cursor equation instantiated at a concrete successful
call (cursor 0, three unit-pitch increments, returned cursor 3). -/
theorem C5_cursor_unwrapped_sum_of_pitch_witness :
    (3 : ℚ) = 0 + (storeOnes.pitch_ramp 1 1 3).sum :=
  C5_cursor_unwrapped_sum_of_pitch.1 storeOnes 0 3 1 1 1 1 0 false
    [((1 : ℚ), (1 : ℚ)), (0, 0), (0, 0)] 3 (by with_unfolding_all rfl)

/-! Claims C6 and C10 (and the voice-correspondence lemmas). -/

theorem get_frames_fields (s : SoundInstance) (n : ℕ) (fr : List Frame)
    (s' : SoundInstance) (h : s.get_frames n = some (fr, s')) :
    s'.id = s.id ∧ s'.loop = s.loop ∧ s'.toRemove = s.toRemove := by
  unfold SoundInstance.get_frames at h
  split at h
  · exact absurd h (by simp)
  · split at h
    · exact absurd h (by simp)
    · simp only [Option.some.injEq, Prod.mk.injEq] at h
      obtain ⟨-, h2⟩ := h
      rw [← h2]
      exact ⟨rfl, rfl, rfl⟩

theorem mix_fold_voices (n : ℕ) :
    ∀ (voices : List SoundInstance) (acc : List Frame × List SoundInstance) r,
    voices.foldlM (mix_step n) acc = some r →
    ∃ L, List.Forall₂
        (fun s s' => s'.id = s.id ∧ s'.loop = s.loop ∧ s'.toRemove = s.toRemove)
        voices L ∧ r.2 = acc.2 ++ L := by
  intro voices
  induction voices with
  | nil =>
    intro acc r hr
    simp only [List.foldlM_nil, pure, Option.some.injEq] at hr
    subst hr
    exact ⟨[], List.Forall₂.nil, (List.append_nil _).symm⟩
  | cons v vs ih =>
    intro acc r hr
    rw [List.foldlM_cons] at hr
    cases hstep : mix_step n acc v with
    | none => rw [hstep] at hr; simp at hr
    | some acc' =>
      rw [hstep] at hr
      have hr' : vs.foldlM (mix_step n) acc' = some r := hr
      unfold mix_step at hstep
      cases hg : v.get_frames n with
      | none => rw [hg] at hstep; simp at hstep
      | some fr =>
        rw [hg] at hstep
        simp only [Option.some.injEq] at hstep
        subst hstep
        obtain ⟨L, hF, hr2⟩ := ih (mix acc.1 fr.1, acc.2 ++ [fr.2]) r hr'
        refine ⟨fr.2 :: L, ?_, ?_⟩
        · exact List.Forall₂.cons
            (get_frames_fields v n fr.1 fr.2 (by rw [hg])) hF
        · rw [hr2]
          simp

theorem forall2_mem_right {α β : Type} {P : α → β → Prop} :
    ∀ {l1 : List α} {l2 : List β}, List.Forall₂ P l1 l2 →
      ∀ b ∈ l2, ∃ a ∈ l1, P a b := by
  intro l1 l2 h
  induction h with
  | nil => simp
  | cons h1 h2 ih =>
    intro b hb
    rcases List.mem_cons.mp hb with h | h
    · exact ⟨_, List.mem_cons_self _ _, h ▸ h1⟩
    · obtain ⟨a, ha, hp⟩ := ih b h
      exact ⟨a, List.mem_cons_of_mem _ ha, hp⟩

theorem forall2_mem_left {α β : Type} {P : α → β → Prop} :
    ∀ {l1 : List α} {l2 : List β}, List.Forall₂ P l1 l2 →
      ∀ a ∈ l1, ∃ b ∈ l2, P a b := by
  intro l1 l2 h
  induction h with
  | nil => simp
  | cons h1 h2 ih =>
    intro a ha
    rcases List.mem_cons.mp ha with h | h
    · exact ⟨_, List.mem_cons_self _ _, h ▸ h1⟩
    · obtain ⟨b, hb, hp⟩ := ih a h
      exact ⟨b, List.mem_cons_of_mem _ hb, hp⟩

/-- One `callback` pass maps each input voice to an updated voice with the
same id, loop flag and removal flag, and the surviving set is the
`check_sounds` sweep of those updated voices. -/
theorem callback_corr (voices : List SoundInstance) (n : ℕ) (out : List Frame)
    (vs' : List SoundInstance) (h : callback voices n = some (out, vs')) :
    ∃ L, List.Forall₂
        (fun s s' => s'.id = s.id ∧ s'.loop = s.loop ∧ s'.toRemove = s.toRemove)
        voices L ∧ vs' = check_sounds L := by
  unfold callback at h
  split at h
  · exact absurd h (by simp)
  · rename_i r hfold
    simp only [Option.some.injEq, Prod.mk.injEq] at h
    obtain ⟨-, h2⟩ := h
    obtain ⟨L, hF, hr2⟩ := mix_fold_voices n voices _ r hfold
    refine ⟨L, hF, ?_⟩
    rw [← h2, hr2]
    rfl

end Sounds

namespace Sounds

/-- C6: after `stop(id)` (which flags every matching voice for removal and
zeroes its volume) followed by one completed `callback` tick, no voice
whose id matches remains in the surviving active-voice list handed to the
following tick. -/
theorem C6_stop_then_tick_removes_matching (voices : List SoundInstance)
    (id : String) (n : ℕ) (out : List Frame) (vs' : List SoundInstance)
    (h : callback (stop_sounds voices id) n = some (out, vs')) :
    ∀ v ∈ vs', v.id ≠ id := by
  obtain ⟨L, hF, hvs⟩ := callback_corr _ _ _ _ h
  intro v hv hvid
  subst hvs
  have hv2 : v ∈ L.filter (fun s => !s.finished) := hv
  have hmem : v ∈ L := List.mem_of_mem_filter hv2
  have hfin : (!v.finished) = true := (List.mem_filter.mp hv2).2
  have hrem : v.toRemove = false := by
    unfold SoundInstance.finished at hfin
    simp only [Bool.not_eq_true', Bool.or_eq_false_iff] at hfin
    exact hfin.1
  obtain ⟨s, hs, hid, -, hrem'⟩ := forall2_mem_right hF v hmem
  obtain ⟨s0, hs0, hcase⟩ := List.mem_map.mp hs
  by_cases h0 : s0.id = id
  · have hsrem : s.toRemove = true := by
      rw [← hcase, if_pos h0]
      rfl
    rw [hrem', hsrem] at hrem
    simp at hrem
  · have hsid : s.id = s0.id := by rw [← hcase, if_neg h0]
    exact h0 (by rw [← hsid, ← hid, hvid])

/-- C6 witness: stopping id `"a"` in a two-voice set and running one
concrete tick leaves only the looping voice with id `"m"`. -/
theorem C6_stop_then_tick_removes_matching_witness : voiceLoop1.id ≠ "a" :=
  C6_stop_then_tick_removes_matching [voiceA, voiceLoop] "a" 1 [(1, 1)]
    [voiceLoop1] (by with_unfolding_all rfl) voiceLoop1
    (List.mem_singleton.mpr rfl)

/-! Claim C7. -/

/-- C7: `finished()` is true exactly when the removal flag is set, or the
voice is not looping and its cursor is strictly greater than the store's
length. -/
theorem C7_finished_iff (s : SoundInstance) :
    s.finished = true ↔
      (s.toRemove = true ∨ (s.loop = false ∧ s.index > (s.data.length : ℚ))) := by
  unfold SoundInstance.finished
  cases hr : s.toRemove <;> cases hl : s.loop <;> simp [decide_eq_true_eq]

/-! Claim C8. -/

/-- C8: panning with `pan = 0` leaves every frame unchanged; `pan = 1`
adds the whole left channel into the right channel and zeroes the left;
`pan = -1` is the exact mirror. -/
theorem C8_pan_extremes (frames : List Frame) :
    pan_frames frames 0 = frames ∧
    pan_frames frames 1 = frames.map (fun f => ((0 : ℚ), f.2 + f.1)) ∧
    pan_frames frames (-1) = frames.map (fun f => (f.1 + f.2, (0 : ℚ))) := by
  refine ⟨by simp [pan_frames], ?_, ?_⟩
  · unfold pan_frames
    norm_num
  · unfold pan_frames
    norm_num

/-! Claim C9. -/

/-- C9: for an id with no matching active voice, `get_sounds` returns the
empty list (no error) while `get_sound`, which takes element 0 of that
list, fails (`IndexError`, modelled as `none`). -/
theorem C9_missing_id_query (voices : List SoundInstance) (id : String)
    (h : ∀ v ∈ voices, v.id ≠ id) :
    get_sounds voices id = [] ∧ get_sound voices id = none := by
  have hnil : get_sounds voices id = [] := by
    unfold get_sounds
    rw [List.filter_eq_nil_iff]
    intro a ha
    simp [h a ha]
  exact ⟨hnil, by unfold get_sound; rw [hnil]; rfl⟩

/-- C9 witness: querying id `"a"` against a set holding only id `"m"`. -/
theorem C9_missing_id_query_witness :
    get_sounds [voiceLoop] "a" = [] ∧ get_sound [voiceLoop] "a" = none :=
  C9_missing_id_query [voiceLoop] "a" (by
    intro v hv
    rw [List.eq_of_mem_singleton hv]
    decide)

/-! Claim C10. -/

/-- C10: a looping voice whose removal flag is unset is never `finished()`
(whatever its cursor), so across any number of completed ticks a
corresponding voice — same id, still looping, still unflagged — survives
every reap pass. -/
theorem C10_looping_voice_never_reaped (k n : ℕ)
    (voices vs' : List SoundInstance) (h : tickN k n voices = some vs') :
    ∀ v ∈ voices, v.loop = true → v.toRemove = false →
      ∃ v' ∈ vs', v'.id = v.id ∧ v'.loop = true ∧ v'.toRemove = false := by
  induction k generalizing voices with
  | zero =>
    intro v hv hloop hrem
    simp only [tickN, Option.some.injEq] at h
    subst h
    exact ⟨v, hv, rfl, hloop, hrem⟩
  | succ k ih =>
    intro v hv hloop hrem
    unfold tickN at h
    split at h
    · exact absurd h (by simp)
    · rename_i r hcb
      obtain ⟨out, mid⟩ := r
      obtain ⟨L, hF, hmid⟩ := callback_corr voices n out mid hcb
      obtain ⟨v2, hv2, hid2, hloop2, hrem2⟩ := forall2_mem_left hF v hv
      have hfin : v2.finished = false := by
        unfold SoundInstance.finished
        rw [hrem2, hrem, hloop2, hloop]
        simp
      have hv2mid : v2 ∈ check_sounds L := by
        unfold check_sounds
        exact List.mem_filter.mpr ⟨hv2, by rw [hfin]; rfl⟩
      obtain ⟨v', hv', hid', hloop', hrem'⟩ :=
        ih mid h v2 (hmid ▸ hv2mid) (hloop2.trans hloop) (hrem2.trans hrem)
      exact ⟨v', hv', hid'.trans hid2, hloop', hrem'⟩

/-- C10 witness: the looping voice over the length-2 store survives two
concrete ticks (returning to cursor 0) with id, loop flag and removal
flag intact. -/
theorem C10_looping_voice_never_reaped_witness :
    ∃ v' ∈ [voiceLoop], v'.id = voiceLoop.id ∧ v'.loop = true ∧
      v'.toRemove = false :=
  C10_looping_voice_never_reaped 2 1 [voiceLoop] [voiceLoop]
    (by with_unfolding_all rfl) voiceLoop (List.mem_singleton.mpr rfl) rfl rfl

end Sounds
